import Mathlib

/-!
Shallow embedding of the PrimeTrade backend (Express + Mongoose, src/).

Conventions of the embedding:
* Mongo object ids are modelled as `Nat`.
* Timestamps (`createdAt`) are modelled as whole days since the Unix epoch
  (`Int`), which is the granularity at which every analytics bucket key and
  month comparison in the source operates; `Date` computations assume the
  UTC zone, as `toISOString` does.
* JS numbers appearing in `metrics` are modelled as whole numbers (`Int`);
  the only fractional arithmetic in the routes — the dashboard's mean and
  percent-change divisions — is carried out in `ℚ` exactly where the source
  divides, and `Math.round` is the round-half-up `round` of `ℚ`
  (`Math.round x = ⌊x + 1/2⌋`, matching JS).
* External libraries (bcrypt, Joi's email/uri format checks, JWT signing)
  are abstracted as function parameters; the schema's `lowercase` email
  setter is modelled over ASCII; the repository's own logic is translated
  literally.
-/

namespace PrimeTrade

/-! ## Calendar arithmetic (models of JS `Date` accessors used in the routes) -/

/-- Civil calendar date (year, month 1..12, day 1..31) from a count of days
since 1970-01-01, the standard Gregorian conversion used by JS `Date`
UTC accessors / `toISOString`. -/
def civilFromDays (z : Int) : Int × Int × Int :=
  let z2 := z + 719468
  let era := z2 / 146097
  let doe := z2 - era * 146097
  let yoe := (doe - doe / 1460 + doe / 36524 - doe / 146096) / 365
  let y := yoe + era * 400
  let doy := doe - (365 * yoe + yoe / 4 - yoe / 100)
  let mp := (5 * doy + 2) / 153
  let d := doy - (153 * mp + 2) / 5 + 1
  let m := mp + (if mp < 10 then 3 else -9)
  (y + (if m ≤ 2 then 1 else 0), m, d)

/-- Linearised calendar month `getFullYear() * 12 + getMonth()` of a day
count; two dates satisfy `getMonth() === … && getFullYear() === …` in the
source exactly when their `monthIndex` agree, and the source's
`new Date(y, m - 1)` (JS normalises January−1 to December of `y − 1`)
is exactly `monthIndex − 1`. -/
def monthIndex (t : Int) : Int :=
  (civilFromDays t).1 * 12 + ((civilFromDays t).2.1 - 1)

/-- Day of week of a day count, `Date.prototype.getDay`: 0 = Sunday.
1970-01-01 was a Thursday (= 4). -/
def dayOfWeek (t : Int) : Int := (t + 4) % 7

/-! ## Data model (src/models/Entity.js) -/

/-- Sub-document `metrics` of the entity schema (whole-number metric
values; the only fractional arithmetic in the routes is the mean/percent
division of the dashboard, performed in `ℚ` where it occurs). -/
structure Metrics where
  views : Int
  engagement : Int
  score : Int
deriving DecidableEq, Repr

/-- Entity document (src/models/Entity.js). `createdAt` is in days since
epoch (see file header). -/
structure Entity where
  id : Nat
  userId : Nat
  title : String
  description : Option String := none
  category : String
  status : String := "active"
  priority : String := "medium"
  tags : List String := []
  metrics : Metrics := ⟨0, 0, 0⟩
  createdAt : Int
  updatedAt : Int := 0
deriving DecidableEq, Repr

/-! ## Analytics dashboard (src/routes/analytics.js, GET /dashboard) -/

/-- Payload of the `data` field returned by GET /api/analytics/dashboard. -/
structure DashboardData where
  totalEntities : Nat
  activeEntities : Nat
  avgEngagement : ℚ
  totalViews : Int
  trend : Int
deriving DecidableEq, Repr

/-- The dashboard handler's computation over the owner's entities
(`Entity.find({ userId: req.user.sub })` followed by the in-memory
aggregation), parameterised by the current time `now` (in days). -/
def dashboard (now : Int) (store : List Entity) (uid : Nat) : DashboardData :=
  let entities := store.filter (fun e => e.userId == uid)
  let totalEntities := entities.length
  let activeEntities := (entities.filter (fun e => e.status == "active")).length
  let totalViews := entities.foldl (fun sum e => sum + e.metrics.views) 0
  let avgEngagement : ℚ :=
    if entities.length > 0 then
      ((entities.foldl (fun sum e => sum + e.metrics.engagement) 0 : Int) : ℚ) /
        entities.length
    else 0
  let thisMonthEntities :=
    (entities.filter (fun e => monthIndex e.createdAt == monthIndex now)).length
  let lastMonthEntities :=
    (entities.filter (fun e => monthIndex e.createdAt == monthIndex now - 1)).length
  let trend : Int :=
    if lastMonthEntities > 0 then
      round ((((thisMonthEntities : ℚ) - lastMonthEntities) / lastMonthEntities) * 100)
    else 0
  { totalEntities := totalEntities
    activeEntities := activeEntities
    avgEngagement := (round (avgEngagement * 10) : ℚ) / 10
    totalViews := totalViews
    trend := trend }

/-- Entities of the given owner, `Entity.find({ userId })`. -/
def ownedEntities (store : List Entity) (uid : Nat) : List Entity :=
  store.filter (fun e => e.userId == uid)

/-! ## Analytics performance (src/routes/analytics.js, GET /performance)

The route's string date keys are encoded as integers, order- and
equality-isomorphic to the strings produced by the source (and to their
`new Date(…)` parses used by the final sort comparator): a daily or weekly
key "YYYY-MM-DD" is the day count of that date, a monthly key "YYYY-MM" is
`year * 12 + month`. -/

/-- Value of the `period` query parameter (the route defaults a missing
value to `daily`). -/
inductive Period where
  | daily
  | weekly
  | monthly
deriving DecidableEq, Repr

/-- Date key of one entity: daily → its calendar date; weekly → the date
`entityDate.getDate() - entityDate.getDay()` days-of-week earlier (the
Sunday-aligned week start); monthly → the year-month. -/
def dateKey (p : Period) (t : Int) : Int :=
  match p with
  | .daily => t
  | .weekly => t - dayOfWeek t
  | .monthly => monthIndex t

/-- One value of `performanceMap`: `{ date, entities, views, engagement }`. -/
structure Bucket where
  date : Int
  entities : Nat
  views : Int
  engagement : Int
deriving DecidableEq, Repr

/-- The `+=` block of the route: count the entity and add its metrics. -/
def bucketAdd (b : Bucket) (e : Entity) : Bucket :=
  { b with
    entities := b.entities + 1
    views := b.views + e.metrics.views
    engagement := b.engagement + e.metrics.engagement }

/-- One iteration of the route's `entities.forEach`: if the key is absent,
a zero bucket is appended (JS objects keep string-key insertion order),
then the entity is accumulated into the key's bucket. -/
def upsertBucket (k : Int) (e : Entity) : List Bucket → List Bucket
  | [] => [bucketAdd { date := k, entities := 0, views := 0, engagement := 0 } e]
  | b :: m => if b.date = k then bucketAdd b e :: m else b :: upsertBucket k e m

/-- The `performanceMap` object after the whole `forEach`, as its ordered
list of values. -/
def performanceMap (p : Period) (es : List Entity) : List Bucket :=
  es.foldl (fun m e => upsertBucket (dateKey p e.createdAt) e m) []

/-- Ordered insertion for the final
`sort((a, b) => new Date(a.date) - new Date(b.date))`. -/
def insertSorted (b : Bucket) : List Bucket → List Bucket
  | [] => [b]
  | c :: m => if b.date ≤ c.date then b :: c :: m else c :: insertSorted b m

/-- Sorting the bucket list ascending by date key (all keys are distinct,
so any comparison sort returns this unique order). -/
def sortBuckets : List Bucket → List Bucket
  | [] => []
  | b :: m => insertSorted b (sortBuckets m)

/-- The route's entity query
`Entity.find({ userId, createdAt: { $gte: startDate, $lte: endDate } })`. -/
def inRangeEntities (store : List Entity) (uid : Nat) (startD endD : Int) : List Entity :=
  store.filter (fun e =>
    e.userId == uid && decide (startD ≤ e.createdAt) && decide (e.createdAt ≤ endD))

/-- The full GET /api/analytics/performance computation (dates already
parsed; unparsable dates take the 400 branch before any of this runs). -/
def performance (p : Period) (store : List Entity) (uid : Nat) (startD endD : Int) :
    List Bucket :=
  sortBuckets (performanceMap p (inRangeEntities store uid startD endD))

/-- Specification-side description of one bucket: the count and metric sums
over exactly the entities whose creation date falls under key `k`. -/
def specGroup (p : Period) (k : Int) (es : List Entity) : Bucket :=
  { date := k
    entities := (es.filter (fun e => dateKey p e.createdAt == k)).length
    views := ((es.filter (fun e => dateKey p e.createdAt == k)).map
                (fun e => e.metrics.views)).sum
    engagement := ((es.filter (fun e => dateKey p e.createdAt == k)).map
                     (fun e => e.metrics.engagement)).sum }

/-! ## Entity routes (src/routes/entities.js) -/

/-- Replacing the first element satisfying `p` (Mongo updates the single
matched document of `findOneAndUpdate`). -/
def replaceFirst {α : Type} (p : α → Bool) (a : α) : List α → List α
  | [] => []
  | x :: xs => if p x then a :: xs else x :: replaceFirst p a xs

/-- Removing the first element satisfying `p` (`findOneAndDelete`). -/
def removeFirst {α : Type} (p : α → Bool) : List α → List α
  | [] => []
  | x :: xs => if p x then xs else x :: removeFirst p xs

/-- Body accepted by PUT /api/entities/:id (its Joi schema has only these
five optional keys; unknown keys are rejected by Joi and hence not
representable). -/
structure EntityUpdateBody where
  title : Option String := none
  description : Option String := none
  status : Option String := none
  priority : Option String := none
  tags : Option (List String) := none
deriving DecidableEq, Repr

/-- The update route's Joi validation: `Joi.string()` rejects empty strings,
`status`/`priority` are restricted to their enums. -/
def validUpdateBody (b : EntityUpdateBody) : Bool :=
  (match b.title with | none => true | some s => !(s == "")) &&
  (match b.description with | none => true | some s => !(s == "")) &&
  (match b.status with | none => true | some s => s == "active" || s == "inactive") &&
  (match b.priority with
   | none => true
   | some s => s == "low" || s == "medium" || s == "high") &&
  (match b.tags with | none => true | some ts => ts.all (fun t => !(t == "")))

/-- Status and entity payload of one entity route response. -/
structure EntityResp where
  status : Nat
  body : Option Entity
deriving DecidableEq, Repr

/-- GET /api/entities/:id — `Entity.findOne({ _id, userId })`, 404 when no
document matches both. -/
def getEntity (store : List Entity) (uid : Nat) (id : Nat) : EntityResp :=
  match store.find? (fun e => e.id == id && e.userId == uid) with
  | none => { status := 404, body := none }
  | some e => { status := 200, body := some e }

/-- Spreading the validated partial body over a document, plus the route's
`updatedAt: new Date()`. -/
def applyUpdate (b : EntityUpdateBody) (now : Int) (e : Entity) : Entity :=
  { e with
    title := b.title.getD e.title
    description := (match b.description with | none => e.description | some d => some d)
    status := b.status.getD e.status
    priority := b.priority.getD e.priority
    tags := b.tags.getD e.tags
    updatedAt := now }

/-- PUT /api/entities/:id — Joi validation, then
`findOneAndUpdate({ _id, userId }, …, { new: true })`; 404 when no
document matches both. Returns the response and the new store. -/
def updateEntity (store : List Entity) (uid : Nat) (id : Nat) (b : EntityUpdateBody)
    (now : Int) : EntityResp × List Entity :=
  if !(validUpdateBody b) then ({ status := 400, body := none }, store)
  else
    match store.find? (fun e => e.id == id && e.userId == uid) with
    | none => ({ status := 404, body := none }, store)
    | some e =>
      let e2 := applyUpdate b now e
      ({ status := 200, body := some e2 },
        replaceFirst (fun x => x.id == id && x.userId == uid) e2 store)

/-- DELETE /api/entities/:id — `findOneAndDelete({ _id, userId })`; 404 when
no document matches both. -/
def deleteEntity (store : List Entity) (uid : Nat) (id : Nat) : Nat × List Entity :=
  match store.find? (fun e => e.id == id && e.userId == uid) with
  | none => (404, store)
  | some _ => (200, removeFirst (fun e => e.id == id && e.userId == uid) store)

/-- Sort key of the list route: `metrics.views` or `metrics.engagement`
descending when requested, `createdAt` descending otherwise. -/
def entitySortKey (sortBy : Option String) (e : Entity) : Int :=
  if sortBy == some "views" then e.metrics.views
  else if sortBy == some "engagement" then e.metrics.engagement
  else e.createdAt

/-- Descending comparison used by the list route's sort. -/
def newestFirst (sortBy : Option String) (a b : Entity) : Prop :=
  entitySortKey sortBy b ≤ entitySortKey sortBy a

instance (sortBy : Option String) : DecidableRel (newestFirst sortBy) :=
  fun _ _ => inferInstanceAs (Decidable (_ ≤ _))

instance (sortBy : Option String) : IsTotal Entity (newestFirst sortBy) :=
  ⟨fun _ _ => le_total _ _⟩

instance (sortBy : Option String) : IsTrans Entity (newestFirst sortBy) :=
  ⟨fun _ _ _ h1 h2 => le_trans h2 h1⟩

/-- The filter of GET /api/entities: owner always, `category`/`status` only
when the query provides them. -/
def listFilter (uid : Nat) (category status : Option String) (e : Entity) : Bool :=
  e.userId == uid &&
  (match category with | none => true | some c => e.category == c) &&
  (match status with | none => true | some s => e.status == s)

/-- GET /api/entities — filter, sort descending by the chosen key,
`skip((page-1)*limit).limit(limit)`, and `countDocuments` of the same
filtered query. Returns the page slice and the total. -/
def listEntities (store : List Entity) (uid : Nat) (page limit : Nat)
    (category status sortBy : Option String) : List Entity × Nat :=
  let skip := (page - 1) * limit
  let filtered := store.filter (listFilter uid category status)
  let sorted := List.insertionSort (newestFirst sortBy) filtered
  ((sorted.drop skip).take limit, filtered.length)

/-! ## Users and auth routes (src/models/User.js, src/routes/auth.js,
src/middleware/errorHandler.js) -/

/-- User document (src/models/User.js); `passwordHash` is absent for
Google-only accounts. -/
structure User where
  id : Nat
  email : String
  passwordHash : Option String := none
  name : String
  avatar : Option String := none
  googleId : Option String := none
  createdAt : Int := 0
  updatedAt : Int := 0
deriving DecidableEq, Repr

/-- JSON scalar appearing in a serialized document field. -/
inductive JVal where
  | str (s : String)
  | num (n : Int)
  | null
deriving DecidableEq, Repr

/-- The `pre("save")` hook: hash only when the `passwordHash` path was
modified in this save (the dirty flag is `isModified("passwordHash")`);
the hook can only fire on a document whose field is set. -/
def preSaveHook (hash : String → String) (modifiedHash : Bool) (u : User) : User :=
  if !modifiedHash then u
  else match u.passwordHash with
       | none => u
       | some p => { u with passwordHash := some (hash p) }

/-- `doc.toObject()`: the persisted fields as an ordered key/value list
(unset optional fields are absent from the document), with the internal
version key `__v`. -/
def userToObject (u : User) (version : Int) : List (String × JVal) :=
  [("_id", JVal.num u.id), ("email", JVal.str u.email)] ++
  (match u.passwordHash with | none => [] | some h => [("passwordHash", JVal.str h)]) ++
  [("name", JVal.str u.name)] ++
  (match u.avatar with | none => [] | some a => [("avatar", JVal.str a)]) ++
  (match u.googleId with | none => [] | some g => [("googleId", JVal.str g)]) ++
  [("createdAt", JVal.num u.createdAt), ("updatedAt", JVal.num u.updatedAt),
   ("__v", JVal.num version)]

/-- `userSchema.methods.toJSON`: `toObject()` then
`delete user.passwordHash; delete user.__v`. -/
def userToJSON (u : User) (version : Int) : List (String × JVal) :=
  (userToObject u version).filter
    (fun kv => !(kv.1 == "passwordHash") && !(kv.1 == "__v"))

/-- ASCII model of one character of JS `toLowerCase` (the schema's
`lowercase: true` setter). -/
def lowerChar (c : Char) : Char :=
  if 65 ≤ c.toNat ∧ c.toNat ≤ 90 then Char.ofNat (c.toNat + 32) else c

/-- ASCII model of the Mongoose `lowercase: true` email setter, applied
both when saving and when casting a query filter value. -/
def lowerStr (s : String) : String := String.mk (s.data.map lowerChar)

/-- POST /api/auth/login. `emailOk` abstracts Joi's email format check,
`verify` abstracts `bcrypt.compare`. The Mongoose `lowercase` setter is
applied to the queried email, and stored emails are saved lowercased.
Result: (status, error message if any, authenticated subject if any). -/
def login (emailOk : String → Bool) (verify : String → String → Bool)
    (store : List User) (email password : String) :
    Nat × Option String × Option Nat :=
  if !(emailOk email && !(password == "")) then (400, some "validation error", none)
  else
    match store.find? (fun u => u.email == lowerStr email) with
    | none => (401, some "Invalid email or password", none)
    | some u =>
      match u.passwordHash with
      | none => (401, some "Invalid email or password", none)
      | some h =>
        if verify password h then (200, none, some u.id)
        else (401, some "Invalid email or password", none)

/-- POST /api/auth/signup. Joi validation (email format, password length at
least 8, non-empty name); duplicate check by `findOne({ email })`; on
success the saved user has the lowercased email and the hashed password
(lowercase setter plus `pre("save")` hook). Returns status and new store. -/
def signup (emailOk : String → Bool) (hash : String → String) (store : List User)
    (nextId : Nat) (email password name : String) : Nat × List User :=
  if !(emailOk email && decide (password.length ≥ 8) && !(name == "")) then
    (400, store)
  else
    match store.find? (fun u => u.email == lowerStr email) with
    | some _ => (400, store)
    | none =>
      let u0 : User := { id := nextId, email := email, passwordHash := some password,
                         name := name }
      let u := preSaveHook hash true { u0 with email := lowerStr u0.email }
      (201, store ++ [u])

/-- GET /api/auth/me — 404 when the credential's subject id no longer
resolves, otherwise the `toJSON` projection. -/
def me (store : List User) (uid : Nat) : Nat × Option (List (String × JVal)) :=
  match store.find? (fun u => u.id == uid) with
  | none => (404, none)
  | some u => (200, some (userToJSON u 0))

/-- A thrown JS error as seen by the central error handler: its optional
`statusCode` property and its message. -/
structure JsError where
  statusCode : Option Nat
  message : String
deriving DecidableEq, Repr

/-- Body accepted by PUT /api/auth/profile. -/
structure ProfileBody where
  name : Option String := none
  avatar : Option String := none
deriving DecidableEq, Repr

/-- The profile route's Joi validation; `uriOk` abstracts `Joi.string().uri()`. -/
def validProfileBody (uriOk : String → Bool) (b : ProfileBody) : Bool :=
  (match b.name with | none => true | some n => !(n == "")) &&
  (match b.avatar with | none => true | some a => uriOk a)

/-- PUT /api/auth/profile — Joi validation, `findByIdAndUpdate` with
`{ new: true }`, then `user.toJSON()` on the result with no null check:
when the id resolves to no document the route dereferences `null` and the
thrown TypeError (which has no `statusCode`) escapes to `next(error)`. -/
def updateProfile (uriOk : String → Bool) (store : List User) (uid : Nat)
    (b : ProfileBody) (now : Int) :
    Except JsError (Nat × Option (List (String × JVal))) × List User :=
  if !(validProfileBody uriOk b) then (Except.ok (400, none), store)
  else
    match store.find? (fun u => u.id == uid) with
    | none =>
      (Except.error
        { statusCode := none
          message := "Cannot read properties of null (reading toJSON)" },
        store)
    | some u =>
      let u2 : User :=
        { u with
          name := b.name.getD u.name
          avatar := (match b.avatar with | none => u.avatar | some a => some a)
          updatedAt := now }
      (Except.ok (200, some (userToJSON u2 0)),
        replaceFirst (fun x => x.id == uid) u2 store)

/-- The central error handler (src/middleware/errorHandler.js):
`err.statusCode || 500` and the error envelope (carrying no user data). -/
def errorHandler (err : JsError) : Nat × Option (List (String × JVal)) :=
  (err.statusCode.getD 500, none)

/-- A route outcome as the client sees it: the handler's own response, or
the centralized responder's one for a thrown error. -/
def handleRoute (r : Except JsError (Nat × Option (List (String × JVal)))) :
    Nat × Option (List (String × JVal)) :=
  match r with
  | Except.ok resp => resp
  | Except.error e => errorHandler e

/-! ## Concrete fixtures for evaluated instances -/

/-- An entity owned by user 99, to be referenced by caller 7. -/
def foreignEntity : Entity :=
  { id := 1, userId := 99, title := "t", category := "c", createdAt := 0 }

/-- Fifteen entities of user 1, created on days 1..15. -/
def fifteenStore : List Entity :=
  (List.range 15).map (fun i =>
    { id := i + 1, userId := 1, title := "t", category := "c",
      createdAt := (i : Int) + 1 })

/-- A Google-only account: no password hash stored. -/
def googleOnlyUser : User :=
  { id := 5, email := "g@x.io", passwordHash := none, name := "g",
    googleId := some "gsub" }

/-- An existing password account whose email will be re-registered. -/
def dupUser : User :=
  { id := 1, email := "a@b.c", passwordHash := some "H", name := "n" }

/-- A password account used for serialization checks. -/
def sampleUser : User :=
  { id := 1, email := "a@b.c", passwordHash := some "h", name := "n" }

/-- A password account about to be saved with a dirty password field. -/
def pwUser : User :=
  { id := 1, email := "e@x.y", passwordHash := some "pw", name := "n" }

/-! ## Theorems -/

/-- Folding an addition of `f` over a list starting from `a` is `a` plus the
sum of the mapped list. -/
theorem foldl_add_eq_sum (f : Entity → Int) :
    ∀ (l : List Entity) (a : Int), l.foldl (fun s e => s + f e) a = a + (l.map f).sum
  | [], a => by simp
  | e :: l, a => by
    rw [List.foldl_cons, foldl_add_eq_sum f l (a + f e)]
    simp [add_assoc]

/-- Keeping the date of a bucket fixed under accumulation. -/
theorem bucketAdd_date (b : Bucket) (e : Entity) : (bucketAdd b e).date = b.date := rfl

/-- Looking a key up after one upsert: the upserted key's bucket gains the
entity (a zero bucket materialising if it was absent); any other key's
lookup is untouched. -/
theorem find?_upsertBucket (k k' : Int) (e : Entity) :
    ∀ m : List Bucket,
      (upsertBucket k e m).find? (fun b => b.date == k') =
        if k' = k then
          some (bucketAdd ((m.find? (fun b => b.date == k)).getD
            { date := k, entities := 0, views := 0, engagement := 0 }) e)
        else m.find? (fun b => b.date == k')
  | [] => by
    by_cases h : k' = k
    · rw [if_pos h, upsertBucket]
      rw [List.find?_cons_of_pos _ (by simp [bucketAdd, h])]
      simp
    · rw [if_neg h, upsertBucket]
      rw [List.find?_cons_of_neg _ (by simp [bucketAdd]; exact fun h2 => h h2.symm)]
  | b :: m => by
    by_cases hb : b.date = k
    · rw [upsertBucket, if_pos hb]
      by_cases h : k' = k
      · rw [if_pos h]
        rw [List.find?_cons_of_pos _ (by simp [bucketAdd, hb, h])]
        rw [List.find?_cons_of_pos (p := fun (c : Bucket) => c.date == k) _ (by simp [hb])]
        simp
      · rw [if_neg h]
        have hbk : ¬ b.date = k' := fun h2 => h (hb ▸ h2).symm
        rw [List.find?_cons_of_neg _ (by simp [bucketAdd, hbk]),
          List.find?_cons_of_neg _ (by simp [hbk])]
    · rw [upsertBucket, if_neg hb]
      by_cases h : k' = k
      · rw [if_pos h]
        have hbk : ¬ b.date = k' := fun h2 => hb (h ▸ h2)
        rw [List.find?_cons_of_neg _ (by simp [hbk])]
        rw [List.find?_cons_of_neg (p := fun (c : Bucket) => c.date == k) _ (by simp [hb])]
        have ih := find?_upsertBucket k k' e m
        rw [if_pos h] at ih
        exact ih
      · by_cases hbk : b.date = k'
        · rw [if_neg h]
          rw [List.find?_cons_of_pos _ (by simp [hbk]),
            List.find?_cons_of_pos _ (by simp [hbk])]
        · rw [if_neg h]
          rw [List.find?_cons_of_neg _ (by simp [hbk]),
            List.find?_cons_of_neg _ (by simp [hbk])]
          have ih := find?_upsertBucket k k' e m
          rw [if_neg h] at ih
          exact ih

/-- Dates appearing after an upsert: either the upserted key or a date that
was already in the map. -/
theorem date_of_mem_upsertBucket (k : Int) (e : Entity) :
    ∀ m : List Bucket, ∀ c ∈ upsertBucket k e m, c.date = k ∨ ∃ b ∈ m, c.date = b.date
  | [], c, hc => by
    simp [upsertBucket] at hc
    subst hc
    exact Or.inl rfl
  | b :: m, c, hc => by
    rw [upsertBucket] at hc
    by_cases hb : b.date = k
    · rw [if_pos hb] at hc
      rcases List.mem_cons.mp hc with h | h
      · exact Or.inl (h ▸ hb ▸ rfl)
      · exact Or.inr ⟨c, List.mem_cons_of_mem _ h, rfl⟩
    · rw [if_neg hb] at hc
      rcases List.mem_cons.mp hc with h | h
      · exact Or.inr ⟨b, List.mem_cons_self _ _, h ▸ rfl⟩
      · rcases date_of_mem_upsertBucket k e m c h with h2 | ⟨b0, hb0, h2⟩
        · exact Or.inl h2
        · exact Or.inr ⟨b0, List.mem_cons_of_mem _ hb0, h2⟩

/-- Upserting preserves distinctness of the dates in the map. -/
theorem pairwise_upsertBucket (k : Int) (e : Entity) :
    ∀ m : List Bucket, m.Pairwise (fun a b => a.date ≠ b.date) →
      (upsertBucket k e m).Pairwise (fun a b => a.date ≠ b.date)
  | [], _ => by simp [upsertBucket]
  | b :: m, h => by
    rcases List.pairwise_cons.mp h with ⟨hhead, htail⟩
    rw [upsertBucket]
    by_cases hb : b.date = k
    · rw [if_pos hb]
      exact List.pairwise_cons.mpr ⟨fun c hc => hhead c hc, htail⟩
    · rw [if_neg hb]
      refine List.pairwise_cons.mpr ⟨fun c hc => ?_, pairwise_upsertBucket k e m htail⟩
      rcases date_of_mem_upsertBucket k e m c hc with h2 | ⟨b0, hb0, h2⟩
      · exact fun hEq => hb (h2 ▸ hEq)
      · exact fun hEq => (hhead b0 hb0) (h2 ▸ hEq)

/-- Grouping at a key matched by no entity gives the zero bucket. -/
theorem specGroup_of_filter_nil {p : Period} {k : Int} {es : List Entity}
    (h : es.filter (fun e => dateKey p e.createdAt == k) = []) :
    specGroup p k es = { date := k, entities := 0, views := 0, engagement := 0 } := by
  simp [specGroup, h]

/-- Grouping after appending one entity: the appended entity's key gains it,
every other key's group is unchanged. -/
theorem specGroup_append (p : Period) (k : Int) (es : List Entity) (x : Entity) :
    specGroup p k (es ++ [x]) =
      if dateKey p x.createdAt = k then bucketAdd (specGroup p k es) x
      else specGroup p k es := by
  by_cases h : dateKey p x.createdAt = k
  · simp [specGroup, bucketAdd, List.filter_append, h]
  · simp [specGroup, List.filter_append, h]

/-- Building the map entity by entity is one upsert per entity. -/
theorem performanceMap_append (p : Period) (es : List Entity) (x : Entity) :
    performanceMap p (es ++ [x]) =
      upsertBucket (dateKey p x.createdAt) x (performanceMap p es) := by
  simp [performanceMap, List.foldl_append]

/-- Central invariant of the `forEach`: after processing all entities, the
lookup of any key in `performanceMap` yields exactly the count and sums
over the entities with that key, and is absent when no entity has it. -/
theorem find?_performanceMap (p : Period) (es : List Entity) (k : Int) :
    (performanceMap p es).find? (fun b => b.date == k) =
      if es.filter (fun e => dateKey p e.createdAt == k) = [] then none
      else some (specGroup p k es) := by
  induction es using List.reverseRecOn with
  | nil => simp [performanceMap]
  | append_singleton es x ih =>
    rw [performanceMap_append, find?_upsertBucket]
    by_cases h : k = dateKey p x.createdAt
    · rw [if_pos h, ← h, ih]
      have hfil : List.filter (fun e => dateKey p e.createdAt == k) (es ++ [x]) =
          List.filter (fun e => dateKey p e.createdAt == k) es ++ [x] := by
        simp [List.filter_append, h]
      rw [hfil, specGroup_append, if_pos h.symm]
      rcases eq_or_ne (List.filter (fun e => dateKey p e.createdAt == k) es) [] with hnil | hne
      · rw [hnil, specGroup_of_filter_nil hnil]
        simp
      · rw [if_neg hne, if_neg (by simp)]
        simp
    · have hne2 : ¬ dateKey p x.createdAt = k := fun h2 => h h2.symm
      rw [if_neg h, ih]
      have hfil : List.filter (fun e => dateKey p e.createdAt == k) (es ++ [x]) =
          List.filter (fun e => dateKey p e.createdAt == k) es := by
        simp [List.filter_append, hne2]
      rw [hfil, specGroup_append, if_neg hne2]

/-- All dates in the built map are pairwise distinct. -/
theorem pairwise_performanceMap (p : Period) (es : List Entity) :
    (performanceMap p es).Pairwise (fun a b => a.date ≠ b.date) := by
  induction es using List.reverseRecOn with
  | nil => simp [performanceMap]
  | append_singleton es x ih =>
    rw [performanceMap_append]
    exact pairwise_upsertBucket _ _ _ ih

/-- Ordered insertion permutes to a cons. -/
theorem perm_insertSorted (b : Bucket) :
    ∀ l : List Bucket, List.Perm (insertSorted b l) (b :: l)
  | [] => List.Perm.refl _
  | c :: m => by
    rw [insertSorted]
    by_cases h : b.date ≤ c.date
    · rw [if_pos h]
    · rw [if_neg h]
      exact ((perm_insertSorted b m).cons c).trans (List.Perm.swap b c m)

/-- Sorting permutes the bucket list. -/
theorem perm_sortBuckets : ∀ l : List Bucket, List.Perm (sortBuckets l) l
  | [] => List.Perm.refl _
  | b :: m => by
    rw [sortBuckets]
    exact (perm_insertSorted b (sortBuckets m)).trans ((perm_sortBuckets m).cons b)

/-- Ordered insertion preserves sortedness by date. -/
theorem pairwise_insertSorted (b : Bucket) :
    ∀ l : List Bucket, l.Pairwise (fun a c => a.date ≤ c.date) →
      (insertSorted b l).Pairwise (fun a c => a.date ≤ c.date)
  | [], _ => by simp [insertSorted]
  | c :: m, h => by
    rcases List.pairwise_cons.mp h with ⟨hhead, htail⟩
    rw [insertSorted]
    by_cases hbc : b.date ≤ c.date
    · rw [if_pos hbc]
      refine List.pairwise_cons.mpr ⟨?_, h⟩
      intro d hd
      rcases List.mem_cons.mp hd with rfl | hd2
      · exact hbc
      · exact le_trans hbc (hhead d hd2)
    · rw [if_neg hbc]
      refine List.pairwise_cons.mpr ⟨?_, pairwise_insertSorted b m htail⟩
      intro d hd
      have hd1 : d = b ∨ d ∈ m := by
        simpa using (perm_insertSorted b m).mem_iff.mp hd
      rcases hd1 with rfl | hd2
      · exact le_of_not_le hbc
      · exact hhead d hd2

/-- The sorted bucket list is sorted (non-strictly) by date. -/
theorem pairwise_sortBuckets :
    ∀ l : List Bucket, (sortBuckets l).Pairwise (fun a c => a.date ≤ c.date)
  | [] => by simp [sortBuckets]
  | b :: m => by
    rw [sortBuckets]
    exact pairwise_insertSorted b _ (pairwise_sortBuckets m)

/-- In a map with pairwise distinct dates, looking up a member's date finds
that very bucket. -/
theorem find?_eq_of_mem {b : Bucket} :
    ∀ m : List Bucket, m.Pairwise (fun a c => a.date ≠ c.date) → b ∈ m →
      m.find? (fun c => c.date == b.date) = some b
  | [], _, hb => absurd hb (List.not_mem_nil b)
  | c :: m, h, hb => by
    rcases List.pairwise_cons.mp h with ⟨hhead, htail⟩
    rcases List.mem_cons.mp hb with rfl | hb2
    · exact List.find?_cons_of_pos _ (by simp)
    · rw [List.find?_cons_of_neg _ (by simp [hhead b hb2]),
        find?_eq_of_mem m htail hb2]

/-- C4: for every owner and date range, the performance operation groups the
in-range entities into buckets by the creation-date key of the chosen
period; each returned bucket equals the count and views/engagement sums of
exactly the entities with its key and is non-empty, every in-range entity
has its key's bucket in the output, the output is strictly ascending by
date key, and the weekly key is the same-or-preceding Sunday (day-of-week
0, at most 6 days before the creation date). -/
theorem performance_bucketing (p : Period) (store : List Entity) (uid : Nat)
    (startD endD : Int) :
    ((performance p store uid startD endD).Pairwise (fun a b => a.date < b.date)) ∧
    (∀ b ∈ performance p store uid startD endD,
       b = specGroup p b.date (inRangeEntities store uid startD endD) ∧ 0 < b.entities) ∧
    (∀ x ∈ inRangeEntities store uid startD endD,
       ∃ b ∈ performance p store uid startD endD, b.date = dateKey p x.createdAt) ∧
    (∀ t : Int, dayOfWeek (dateKey Period.weekly t) = 0 ∧
       dateKey Period.weekly t ≤ t ∧ t < dateKey Period.weekly t + 7) := by
  have hperm : List.Perm (performance p store uid startD endD)
      (performanceMap p (inRangeEntities store uid startD endD)) := perm_sortBuckets _
  have hpw : (performanceMap p (inRangeEntities store uid startD endD)).Pairwise
      (fun a b => a.date ≠ b.date) := pairwise_performanceMap _ _
  have hcontents : ∀ b ∈ performance p store uid startD endD,
      b = specGroup p b.date (inRangeEntities store uid startD endD) ∧ 0 < b.entities := by
    intro b hb
    have hbm : b ∈ performanceMap p (inRangeEntities store uid startD endD) :=
      hperm.mem_iff.mp hb
    have hfind := find?_eq_of_mem _ hpw hbm
    rw [find?_performanceMap] at hfind
    rcases eq_or_ne ((inRangeEntities store uid startD endD).filter
        (fun e => dateKey p e.createdAt == b.date)) [] with hnil | hne
    · rw [if_pos hnil] at hfind
      exact absurd hfind (by simp)
    · rw [if_neg hne] at hfind
      have hbspec : b = specGroup p b.date (inRangeEntities store uid startD endD) :=
        (Option.some.injEq _ _ ▸ hfind).symm
      refine ⟨hbspec, ?_⟩
      rw [hbspec]
      exact List.length_pos.mpr hne
  refine ⟨?_, hcontents, ?_, ?_⟩
  · have hle := pairwise_sortBuckets (performanceMap p (inRangeEntities store uid startD endD))
    have hne : (performance p store uid startD endD).Pairwise (fun a b => a.date ≠ b.date) :=
      (hperm.pairwise_iff (fun h => Ne.symm h)).mpr hpw
    have hle2 : (performance p store uid startD endD).Pairwise
        (fun a b => a.date ≤ b.date) := hle
    exact (hle2.and hne).imp (fun h => lt_of_le_of_ne h.1 h.2)
  · intro x hx
    have hxf : x ∈ (inRangeEntities store uid startD endD).filter
        (fun e => dateKey p e.createdAt == dateKey p x.createdAt) := by
      simp [List.mem_filter, hx]
    have hnn : (inRangeEntities store uid startD endD).filter
        (fun e => dateKey p e.createdAt == dateKey p x.createdAt) ≠ [] :=
      List.ne_nil_of_mem hxf
    have hfind := find?_performanceMap p (inRangeEntities store uid startD endD)
      (dateKey p x.createdAt)
    rw [if_neg hnn] at hfind
    refine ⟨specGroup p (dateKey p x.createdAt) (inRangeEntities store uid startD endD),
      ?_, rfl⟩
    exact hperm.mem_iff.mpr (List.mem_of_find?_eq_some hfind)
  · intro t
    simp only [dateKey, dayOfWeek]
    omega

/-- C2: for every owner, the dashboard's `avgEngagement` is the arithmetic
mean of `metrics.engagement` over all of that owner's entities, rounded to
one decimal place (`Math.round(x * 10) / 10`); with zero entities it is
exactly `0`. -/
theorem dashboard_avgEngagement_mean (now : Int) (store : List Entity) (uid : Nat) :
    (dashboard now store uid).avgEngagement =
      if ownedEntities store uid = [] then 0
      else (round ((((((ownedEntities store uid).map
                (fun e => e.metrics.engagement)).sum : Int) : ℚ)
              / ((ownedEntities store uid).length : ℚ)) * 10) : ℚ) / 10 := by
  unfold dashboard ownedEntities
  by_cases h : store.filter (fun e => e.userId == uid) = []
  · simp [h]
  · have hlen : 0 < (store.filter (fun e => e.userId == uid)).length :=
      List.length_pos.mpr h
    rw [if_neg h]
    simp only [foldl_add_eq_sum, zero_add, hlen, if_pos]

/-- C3: for every owner, the dashboard's `trend` is the percent change in
entity-creation count between the current calendar month and the
immediately preceding one (January's preceding month being December of the
previous year), rounded to the nearest integer, and it is exactly `0`
whenever the preceding month's count is `0`. -/
theorem dashboard_trend_percent_change (now : Int) (store : List Entity) (uid : Nat) :
    (dashboard now store uid).trend =
      if (ownedEntities store uid).countP
           (fun e => monthIndex e.createdAt == monthIndex now - 1) = 0
      then 0
      else round
        (((((ownedEntities store uid).countP
              (fun e => monthIndex e.createdAt == monthIndex now) : ℚ) -
           ((ownedEntities store uid).countP
              (fun e => monthIndex e.createdAt == monthIndex now - 1) : ℚ)) /
           ((ownedEntities store uid).countP
              (fun e => monthIndex e.createdAt == monthIndex now - 1) : ℚ)) * 100) := by
  unfold dashboard ownedEntities
  simp only [List.countP_eq_length_filter]
  by_cases h : (List.filter (fun e => monthIndex e.createdAt == monthIndex now - 1)
      (store.filter (fun e => e.userId == uid))).length = 0
  · rw [if_pos h]
    have hnot : ¬ (0 < (List.filter (fun e => monthIndex e.createdAt == monthIndex now - 1)
        (store.filter (fun e => e.userId == uid))).length) := by omega
    rw [if_neg hnot]
  · have hpos : 0 < (List.filter (fun e => monthIndex e.createdAt == monthIndex now - 1)
        (store.filter (fun e => e.userId == uid))).length := Nat.pos_of_ne_zero h
    rw [if_neg h]
    simp only [hpos, if_pos]

/-- C1: for getOne, update and delete, when no entity matches both the
given id and the caller's user id (in particular when the entity exists
but belongs to another user), each route answers 404 — and therefore
neither 200 nor 403 — so a non-owner reference is indistinguishable from
non-existence. (The update route's Joi validation precedes the lookup, so
its part assumes a shape-valid body.) -/
theorem owner_scoped_routes_404 (store : List Entity) (uid id : Nat)
    (b : EntityUpdateBody) (now : Int)
    (hmatch : store.find? (fun e => e.id == id && e.userId == uid) = none)
    (hb : validUpdateBody b = true) :
    (getEntity store uid id).status = 404 ∧
    (updateEntity store uid id b now).1.status = 404 ∧
    (deleteEntity store uid id).1 = 404 ∧
    ¬ (404 : Nat) = 200 ∧ ¬ (404 : Nat) = 403 := by
  unfold getEntity updateEntity deleteEntity
  rw [hmatch]
  simp [hb]

/-- Witness for C1 at a concrete store: entity 1 exists but is owned by
user 99; caller 7 gets 404 from all three routes. -/
theorem owner_scoped_routes_404_witness :
    (getEntity [foreignEntity] 7 1).status = 404 ∧
    (updateEntity [foreignEntity] 7 1 {} 0).1.status = 404 ∧
    (deleteEntity [foreignEntity] 7 1).1 = 404 ∧
    ¬ (404 : Nat) = 200 ∧ ¬ (404 : Nat) = 403 :=
  owner_scoped_routes_404 [foreignEntity] 7 1 {} 0 (by decide) (by decide)

/-- Witness for C4 at a concrete input: the single entity of user 7 was
created on day 6 (Wednesday 1970-01-07); under the weekly period its
bucket's key is day 3 (Sunday 1970-01-04), it holds that one entity, and
it matches the grouped specification. -/
theorem performance_bucketing_witness :
    ({ date := 3, entities := 1, views := 0, engagement := 0 } : Bucket) =
        specGroup Period.weekly
          ({ date := 3, entities := 1, views := 0, engagement := 0 } : Bucket).date
          (inRangeEntities
            [{ id := 1, userId := 7, title := "w", category := "c", createdAt := 6 }]
            7 0 30) ∧
      0 < ({ date := 3, entities := 1, views := 0, engagement := 0 } : Bucket).entities :=
  (performance_bucketing Period.weekly
    [{ id := 1, userId := 7, title := "w", category := "c", createdAt := 6 }]
    7 0 30).2.1
    { date := 3, entities := 1, views := 0, engagement := 0 } (by decide)

/-- C5 counterexample: on 15 owned entities (creation days 1..15), page=2
with limit=10 skips the first 10 of the newest-first order and returns the
records created on days 5,4,3,2,1 — the 11th–15th most recent — and not
the 6th–10th most recent (days 10..6); the total is 15. -/
theorem list_page2_counterexample :
    ((listEntities fifteenStore 1 2 10 none none none).1.map
        (fun e => e.createdAt) = [5, 4, 3, 2, 1]) ∧
    ¬ ((listEntities fifteenStore 1 2 10 none none none).1.map
        (fun e => e.createdAt) = [10, 9, 8, 7, 6]) ∧
    (listEntities fifteenStore 1 2 10 none none none).2 = 15 := by
  decide

/-- C5 amended: with page=2 and limit=10 over 15 owned entities
(newest-first default sort), the list route returns exactly the
`skip = (page-1)·limit = 10` tail of the descending order — the 11th–15th
most recent records, 5 of them — and reports the filtered total 15. -/
theorem list_page2_returns_tail (store : List Entity) (uid : Nat)
    (h : (store.filter (listFilter uid none none)).length = 15) :
    (listEntities store uid 2 10 none none none).1 =
      (List.insertionSort (newestFirst none)
        (store.filter (listFilter uid none none))).drop 10 ∧
    (listEntities store uid 2 10 none none none).1.length = 5 ∧
    (listEntities store uid 2 10 none none none).2 = 15 ∧
    List.Sorted (newestFirst none)
      (List.insertionSort (newestFirst none) (store.filter (listFilter uid none none))) ∧
    List.Perm
      (List.insertionSort (newestFirst none) (store.filter (listFilter uid none none)))
      (store.filter (listFilter uid none none)) := by
  have hlen : (List.insertionSort (newestFirst none)
      (store.filter (listFilter uid none none))).length = 15 := by
    rw [(List.perm_insertionSort _ _).length_eq, h]
  have hdrop : ((List.insertionSort (newestFirst none)
      (store.filter (listFilter uid none none))).drop 10).length = 5 := by
    rw [List.length_drop, hlen]
  constructor
  · show ((List.insertionSort (newestFirst none)
        (store.filter (listFilter uid none none))).drop ((2 - 1) * 10)).take 10 = _
    norm_num
    omega
  refine ⟨?_, ?_, List.sorted_insertionSort _ _, List.perm_insertionSort _ _⟩
  · show (((List.insertionSort (newestFirst none)
        (store.filter (listFilter uid none none))).drop ((2 - 1) * 10)).take 10).length = 5
    norm_num
    omega
  · exact h

/-- C5 witness: the concrete fifteen-entity store satisfies the 15-length
hypothesis, and the route reports total 15 and a 5-record page. -/
theorem list_page2_returns_tail_witness :
    (fifteenStore.filter (listFilter 1 none none)).length = 15 ∧
    (listEntities fifteenStore 1 2 10 none none none).1.length = 5 ∧
    (listEntities fifteenStore 1 2 10 none none none).2 = 15 :=
  ⟨by decide,
    (list_page2_returns_tail fifteenStore 1 (by decide)).2.1,
    (list_page2_returns_tail fifteenStore 1 (by decide)).2.2.1⟩

/-- C6: a shape-valid login attempt answers 401 with the identical response
(status, generic message, no token) in all three failure cases — no user
for the email, a user with no stored password hash, and a hash mismatch —
so the causes are indistinguishable to the client. -/
theorem login_uniform_invalid (emailOk : String → Bool)
    (verify : String → String → Bool) (store : List User) (email password : String)
    (hvalid : (emailOk email && !(password == "")) = true) :
    (store.find? (fun u => u.email == lowerStr email) = none →
      login emailOk verify store email password =
        (401, some "Invalid email or password", none)) ∧
    (∀ u, store.find? (fun u => u.email == lowerStr email) = some u →
      u.passwordHash = none →
      login emailOk verify store email password =
        (401, some "Invalid email or password", none)) ∧
    (∀ u h, store.find? (fun u => u.email == lowerStr email) = some u →
      u.passwordHash = some h → verify password h = false →
      login emailOk verify store email password =
        (401, some "Invalid email or password", none)) := by
  unfold login
  rw [hvalid]
  refine ⟨fun hfind => ?_, fun u hfind hph => ?_, fun u h hfind hph hv => ?_⟩
  · rw [hfind]
    simp
  · rw [hfind]
    simp [hph]
  · rw [hfind]
    simp [hph, hv]

/-- Witness for C6: a Google-only account (no password hash) gets the
generic 401 on password login. -/
theorem login_uniform_invalid_witness :
    login (fun _ => true) (fun _ _ => true) [googleOnlyUser] "g@x.io" "secret123" =
      (401, some "Invalid email or password", none) :=
  (login_uniform_invalid (fun _ => true) (fun _ _ => true) [googleOnlyUser]
      "g@x.io" "secret123" (by decide)).2.1 googleOnlyUser (by decide) rfl

/-- C7: a signup whose email (case-insensitively) already belongs to a
stored account — stored emails being lowercased by the schema setter —
answers 400 and leaves the user store unchanged: no second account. -/
theorem signup_duplicate_email_rejected (emailOk : String → Bool)
    (hash : String → String) (store : List User) (nextId : Nat)
    (email password name : String)
    (hlower : ∀ u ∈ store, lowerStr u.email = u.email)
    (hdup : ∃ u ∈ store, lowerStr u.email = lowerStr email) :
    (signup emailOk hash store nextId email password name).1 = 400 ∧
    (signup emailOk hash store nextId email password name).2 = store := by
  obtain ⟨u, hu, he⟩ := hdup
  have hfind : ¬ store.find? (fun v => v.email == lowerStr email) = none := by
    intro hnone
    have h2 := List.find?_eq_none.mp hnone u hu
    rw [(hlower u hu).symm.trans he] at h2
    simp at h2
  unfold signup
  cases hfind2 : store.find? (fun v => v.email == lowerStr email) with
  | none => exact absurd hfind2 hfind
  | some w =>
    by_cases hv : (emailOk email && decide (password.length ≥ 8) && !(name == "")) = true
    · simp [hv, hfind2]
    · simp [hv, hfind2]

/-- Witness for C7: re-registering `a@b.c` as `A@B.C` is refused with 400
and the store keeps its single account. -/
theorem signup_duplicate_email_rejected_witness :
    (signup (fun _ => true) (fun s => s) [dupUser] 2 "A@B.C" "password1" "x").1 = 400 ∧
    (signup (fun _ => true) (fun s => s) [dupUser] 2 "A@B.C" "password1" "x").2 =
      [dupUser] :=
  signup_duplicate_email_rejected (fun _ => true) (fun s => s) [dupUser] 2
    "A@B.C" "password1" "x"
    (by intro u hu; simp at hu; rw [hu]; decide)
    ⟨dupUser, by simp, by decide⟩

/-- Keys surviving `toJSON` never include the secret hash or the internal
version field. -/
theorem userToJSON_keys (u : User) (v : Int) :
    ∀ kv ∈ userToJSON u v, ¬ kv.1 = "passwordHash" ∧ ¬ kv.1 = "__v" := by
  intro kv hkv
  have h2 := (List.mem_filter.mp hkv).2
  simp at h2
  exact h2

/-- C8: every serialized user object — the `toJSON` projection in general,
and the bodies produced by the me and updateProfile routes in particular —
contains no `passwordHash` field and no `__v` field. -/
theorem serialized_user_excludes_secret (u : User) (v : Int)
    (uriOk : String → Bool) (store : List User) (uid : Nat) (b : ProfileBody)
    (now : Int) :
    (∀ kv ∈ userToJSON u v, ¬ kv.1 = "passwordHash" ∧ ¬ kv.1 = "__v") ∧
    (∀ body, (me store uid).2 = some body →
      ∀ kv ∈ body, ¬ kv.1 = "passwordHash" ∧ ¬ kv.1 = "__v") ∧
    (∀ st2 s body,
      updateProfile uriOk store uid b now = (Except.ok (s, some body), st2) →
      ∀ kv ∈ body, ¬ kv.1 = "passwordHash" ∧ ¬ kv.1 = "__v") := by
  refine ⟨userToJSON_keys u v, ?_, ?_⟩
  · intro body hbody
    unfold me at hbody
    cases hfind : store.find? (fun w => w.id == uid) with
    | none => rw [hfind] at hbody; simp at hbody
    | some w =>
      rw [hfind] at hbody
      simp at hbody
      exact hbody ▸ userToJSON_keys w 0
  · intro st2 s body hres
    unfold updateProfile at hres
    by_cases hv : validProfileBody uriOk b = true
    · rw [hv] at hres
      simp only [Bool.not_true, Bool.false_eq_true, if_false] at hres
      cases hfind : store.find? (fun w => w.id == uid) with
      | none =>
        rw [hfind] at hres
        simp at hres
      | some w =>
        rw [hfind] at hres
        simp at hres
        obtain ⟨⟨hs, hbody⟩, hst⟩ := hres
        exact hbody ▸ userToJSON_keys _ 0
    · have hv2 : validProfileBody uriOk b = false := by
        cases hb2 : validProfileBody uriOk b
        · rfl
        · exact absurd hb2 hv
      rw [hv2] at hres
      simp at hres

/-- Witness for C8: the `me` route's body for a stored password account
keeps its email field, which is neither the hash nor the version key. -/
theorem serialized_user_excludes_secret_witness :
    ¬ ("email", JVal.str "a@b.c").1 = "passwordHash" ∧
    ¬ ("email", JVal.str "a@b.c").1 = "__v" :=
  (serialized_user_excludes_secret sampleUser 0 (fun _ => true) [sampleUser] 1
      {} 0).2.1 (userToJSON sampleUser 0) rfl ("email", JVal.str "a@b.c")
    (by decide)

/-- C9: the pre-save hook leaves the stored hash untouched whenever the
password field was not modified in this save, and hashes exactly the new
value when it was. -/
theorem password_hash_guard (hash : String → String) (u : User) (p : String) :
    (preSaveHook hash false u = u) ∧
    (u.passwordHash = some p →
      preSaveHook hash true u = { u with passwordHash := some (hash p) }) := by
  constructor
  · rfl
  · intro h
    simp [preSaveHook, h]

/-- Witness for C9: saving a dirty password field replaces `pw` by its
hash. -/
theorem password_hash_guard_witness :
    pwUser.passwordHash = some "pw" ∧
    preSaveHook (fun s => String.append s "!") true pwUser =
      { pwUser with passwordHash := some ((fun s => String.append s "!") "pw") } :=
  ⟨rfl, (password_hash_guard (fun s => String.append s "!") pwUser "pw").2 rfl⟩

/-- C10: a shape-valid updateProfile request whose credential subject no
longer resolves does not answer 404: the null lookup result flows into
response assembly, the thrown error reaches the central handler, and the
client sees 500 — while the me route answers 404 in the same situation. -/
theorem updateProfile_missing_user_500 (uriOk : String → Bool)
    (store : List User) (uid : Nat) (b : ProfileBody) (now : Int)
    (hvalid : validProfileBody uriOk b = true)
    (habsent : store.find? (fun u => u.id == uid) = none) :
    (handleRoute (updateProfile uriOk store uid b now).1).1 = 500 ∧
    ¬ (handleRoute (updateProfile uriOk store uid b now).1).1 = 404 ∧
    (me store uid).1 = 404 := by
  unfold updateProfile me
  rw [hvalid, habsent]
  refine ⟨rfl, by simp [handleRoute, errorHandler], rfl⟩

/-- Witness for C10: with an empty user store, a valid request gets 500
from the profile route and 404 from the me route. -/
theorem updateProfile_missing_user_500_witness :
    (handleRoute (updateProfile (fun _ => true) [] 1 {} 0).1).1 = 500 ∧
    ¬ (handleRoute (updateProfile (fun _ => true) [] 1 {} 0).1).1 = 404 ∧
    (me ([] : List User) 1).1 = 404 :=
  updateProfile_missing_user_500 (fun _ => true) [] 1 {} 0 (by decide) rfl

end PrimeTrade
